import Mathlib

/-!
Shallow embedding of src/visual.ts (a Power BI custom visual rendering a
pipeline diagram). The definitions below transcribe the TypeScript source:
cell values are JavaScript values restricted to the shapes the visual
consumes, rows are arrays of cells, and the DOM-building functions are
modelled as pure functions from their data inputs to the structure they
build, with `Except` marking the places where the JavaScript would throw.
-/

/-- A JavaScript value as it can appear in a table cell. -/
inductive CellValue : Type
  | str (s : String)
  | num (n : Int)
  | boolean (b : Bool)
  | null
  | undefined
deriving DecidableEq, Repr

/-- JavaScript truthiness for a cell value: the empty string, 0, false,
null and undefined are falsy, everything else is truthy. -/
def CellValue.truthy : CellValue → Bool
  | .str s => !(s = "")
  | .num n => !(n = 0)
  | .boolean b => b
  | .null => false
  | .undefined => false

/-- JavaScript toString for a cell value (only ever applied to truthy
values in the source, so the null and undefined branches are moot). -/
def CellValue.toStr : CellValue → String
  | .str s => s
  | .num n => toString n
  | .boolean b => if b then "true" else "false"
  | .null => "null"
  | .undefined => "undefined"

/-- A dataview table column: the set of semantic role tags attached to it
(the keys of the roles object in the source). -/
structure Column : Type where
  roles : List String
deriving DecidableEq, Repr

/-- A table-shaped dataset: columns with role tags and rows of cells. -/
structure Table : Type where
  columns : List Column
  rows : List (List CellValue)
deriving DecidableEq, Repr

/-- The four role column indexes computed by the scan loop in CONVERTER.
In the source, the title, phase and category indexes are initialised to
the number -1 while the name index is left uninitialised (undefined); we
model an index as an optional integer, none standing for undefined. -/
structure RoleIndexes : Type where
  titleIndex : Option Int
  phaseIndex : Option Int
  categoryIndex : Option Int
  nameIndex : Option Int
deriving DecidableEq, Repr

/-- The initial values of the four indexes before the scan loop runs. -/
def initIndexes : RoleIndexes :=
  { titleIndex := some (-1), phaseIndex := some (-1),
    categoryIndex := some (-1), nameIndex := none }

/-- One iteration of the scan loop of CONVERTER over column ti: an
if / else-if chain that overwrites the matching role index with ti. -/
def stepColumn (acc : RoleIndexes) (ti : Nat) (c : Column) : RoleIndexes :=
  if c.roles.contains "Title" then { acc with titleIndex := some (ti : Int) }
  else if c.roles.contains "Phase" then { acc with phaseIndex := some (ti : Int) }
  else if c.roles.contains "Category" then { acc with categoryIndex := some (ti : Int) }
  else if c.roles.contains "Name" then { acc with nameIndex := some (ti : Int) }
  else acc

/-- The scan loop of CONVERTER, iterating ti over the columns from left
to right. -/
def scanColumnsAux (acc : RoleIndexes) (ti : Nat) : List Column → RoleIndexes
  | [] => acc
  | c :: rest => scanColumnsAux (stepColumn acc ti c) (ti + 1) rest

/-- The complete role scan of CONVERTER over the column list. -/
def scanColumns (cols : List Column) : RoleIndexes :=
  scanColumnsAux initIndexes 0 cols

/-- JavaScript indexing row[idx]: an undefined index, a negative index or
an index past the end all read undefined. -/
def rowGet (row : List CellValue) : Option Int → CellValue
  | none => .undefined
  | some i => if i < 0 then .undefined else row.getD i.toNat .undefined

/-- The per-field conversion row[idx] ? row[idx].toString() : null of
CONVERTER. -/
def cellField (row : List CellValue) (idx : Option Int) : Option String :=
  if (rowGet row idx).truthy then some (rowGet row idx).toStr else none

/-- One converted record (interface Pipeline in the source); a field is
none where the source stores null. -/
structure Pipeline : Type where
  Title : Option String
  Phase : Option String
  Category : Option String
  Name : Option String
deriving DecidableEq, Repr

/-- The per-row body of the second loop of CONVERTER. -/
def convertRow (idx : RoleIndexes) (row : List CellValue) : Pipeline :=
  { Title := cellField row idx.titleIndex,
    Phase := cellField row idx.phaseIndex,
    Category := cellField row idx.categoryIndex,
    Name := cellField row idx.nameIndex }

/-- CONVERTER applied to a dataview that does have a table. -/
def convertTable (t : Table) : List Pipeline :=
  t.rows.map (convertRow (scanColumns t.columns))

/-- Visual.CONVERTER: reads dataView.table and then tableView.rows, so a
missing dataview or a missing table throws a TypeError before any record
is produced; we model the whole table access as an optional Table. -/
def CONVERTER : Option Table → Except String (List Pipeline)
  | none => .error "TypeError"
  | some t => .ok (convertTable t)

/-- Modelled from the spec: the parsed settings record (settings.ts is not
part of the sources); per the spec it holds a title text, a comma-separated
phase list, an optional comma-separated category list, an optional image
URL and a layout mode, each read as a string with the empty string for an
unset optional field. -/
structure VisualSettingsPipeline : Type where
  title : String
  phases : String
  categories : String
  imgURL : String
  layout : String
deriving DecidableEq, Repr

/-- The fixed 15-entry color palette declared in update. -/
def colors : List String :=
  ["#2ECC71", "#336EFF", "#641E16", "#FF5733", "#3498DB", "#4A235A",
   "#154360", "#0B5345", "#784212", "#424949", "#17202A", "#E74C3C",
   "#00ff00", "#0000ff", "#252D48"]

/-- The comma segments of a character list, by structural recursion. -/
def splitCommaChars : List Char → List (List Char)
  | [] => [[]]
  | c :: rest =>
    match splitCommaChars rest with
    | [] => if c = ',' then [[], []] else [[c]]
    | seg :: segs => if c = ',' then [] :: seg :: segs else (c :: seg) :: segs

/-- JavaScript String.prototype.split with separator a comma: the list of
segments between commas, with the empty string splitting to one empty
segment. -/
def splitComma (s : String) : List String :=
  (splitCommaChars s.data).map (fun l => { data := l })

/-- The index of the first occurrence of a value in a list (the value of
Array.prototype.indexOf on any element that does occur, which is the only
case the dedupe filter evaluates). -/
def firstIdx : List (Option String) → Option String → Nat
  | [], _ => 0
  | a :: rest, v => if a = v then 0 else firstIdx rest v + 1

/-- The dedupe step of update for the unconfigured-categories branch:
filter((v, i, self) => self.indexOf(v) === i), keeping each value at its
first occurrence. -/
def dedupeByFirstIndex (l : List (Option String)) : List (Option String) :=
  (l.enum.filter (fun iv => firstIdx l iv.2 == iv.1)).map (fun iv => iv.2)

/-- The character sequence a JavaScript array element is converted to by
the default sort comparator: null converts to the text null. -/
def sortKey : Option String → List Char
  | some s => s.data
  | none => "null".data

/-- The ordering the default JavaScript sort comparator applies to the
category values: lexicographic comparison of the converted character
sequences (the order of String.lt, stated over the data lists). -/
def catLE (a b : Option String) : Prop := sortKey a ≤ sortKey b

instance : DecidableRel catLE :=
  fun a b => inferInstanceAs (Decidable (sortKey a ≤ sortKey b))

instance : IsTotal (Option String) catLE :=
  ⟨fun a b => le_total (sortKey a) (sortKey b)⟩

instance : IsTrans (Option String) catLE :=
  ⟨fun _ _ _ h h2 => le_trans h h2⟩

/-- Array.prototype.sort with the default comparator, on the category
values: a stable sort by the converted strings (any stable sort computes
the same list for this total preorder). -/
def jsSort (l : List (Option String)) : List (Option String) :=
  l.insertionSort catLE

/-- One entry of the derived category-color mapping of update. -/
structure CategoryColor : Type where
  category : Option String
  color : Option String
deriving DecidableEq, Repr

/-- The category-color derivation of update: the raw category list is the
comma-split categories setting when that setting is truthy and otherwise
the first-occurrence-deduped Category values of the record list passed in;
the raw list is then sorted in place and zipped by position against the
palette, reading undefined past the palette end. -/
def mkCategoryColorData (categories : String) (pipelineData : List Pipeline) :
    List CategoryColor :=
  let categoryData : List (Option String) :=
    if !(categories = "") then (splitComma categories).map some
    else dedupeByFirstIndex (pipelineData.map (fun d => d.Category))
  ((jsSort categoryData).enum).map (fun ic => { category := ic.2, color := colors[ic.1]? })

/-- JavaScript String.prototype.toLowerCase, applied characterwise. -/
def jsToLower (s : String) : String := { data := s.data.map Char.toLower }

/-- The innerHTML written into a layout band: an img tag when the image
URL setting is truthy, the empty string otherwise. -/
def bandHtml (imgURL : String) : String :=
  if !(imgURL = "") then "<img src=\"" ++ imgURL ++ "\"/>" else ""

/-- Visual.renderLayout as a function from the previous contents of the
header and footer containers to their new contents: only the band selected
by the lowercased layout setting is written, anything else is left as it
was. -/
def renderLayout (layout imgURL : String) (headerHtml footerHtml : String) :
    String × String :=
  if jsToLower layout = "header" then (bandHtml imgURL, footerHtml)
  else if jsToLower layout = "footer" then (headerHtml, bandHtml imgURL)
  else (headerHtml, footerHtml)

/-- One company block of the companies area: the two paragraph texts and
the color both are styled with. -/
structure CompanyBlock : Type where
  companyName : String
  productName : String
  color : Option String
deriving DecidableEq, Repr

/-- One per-phase group of the companies area. -/
structure PhaseGroup : Type where
  phase : String
  blocks : List CompanyBlock
deriving DecidableEq, Repr

/-- The per-record color lookup of renderPipelineReport: filter the
mapping by strict equality on the category and destructure the first
element; when the filter is empty the destructured value is undefined and
reading .color from it throws a TypeError. -/
def lookupColor (ccd : List CategoryColor) (cat : Option String) :
    Except String (Option String) :=
  match (ccd.filter (fun cd => cd.category == cat)).head? with
  | some cc => .ok cc.color
  | none => .error "TypeError"

/-- The block construction of renderPipelineReport for the records of one
phase: each record yields a company-name paragraph (Title text or empty)
and a product-name paragraph (Name text or empty), both styled with the
looked-up color; a failing lookup throws out of the whole render. -/
def renderCompanies (ccd : List CategoryColor) :
    List Pipeline → Except String (List CompanyBlock)
  | [] => .ok []
  | d :: rest =>
    match lookupColor ccd d.Category with
    | .error e => .error e
    | .ok c =>
      match renderCompanies ccd rest with
      | .error e => .error e
      | .ok bs =>
        .ok ({ companyName := d.Title.getD "", productName := d.Name.getD "",
               color := c } :: bs)

/-- Visual.renderPipelineReport, companies area: one phase-companies group
per entry of the comma-split phases setting, in that order, holding one
block per record whose Phase strictly equals the phase label. -/
def renderPipelineReport (ccd : List CategoryColor) (pipelineData : List Pipeline) :
    List String → Except String (List PhaseGroup)
  | [] => .ok []
  | pd :: rest =>
    match renderCompanies ccd (pipelineData.filter (fun d => d.Phase == some pd)) with
    | .error e => .error e
    | .ok bs =>
      match renderPipelineReport ccd pipelineData rest with
      | .error e => .error e
      | .ok gs => .ok ({ phase := pd, blocks := bs } :: gs)

/-- One legend entry: the category text (or empty for null) in its color. -/
structure LegendEntry : Type where
  label : String
  color : Option String
deriving DecidableEq, Repr

/-- Visual.renderLegend: one entry per pair of the mapping, in mapping
order. -/
def renderLegend (ccd : List CategoryColor) : List LegendEntry :=
  ccd.map (fun cc => { label := cc.category.getD "", color := cc.color })

/-- The host-provided viewport of an update call. -/
structure Viewport : Type where
  height : Int
  width : Int
deriving DecidableEq, Repr

/-- The size written onto the content root by update. -/
structure ContentSize : Type where
  height : Int
  width : Int
deriving DecidableEq, Repr

/-- The style computation of update for the content root: the height is
reduced by 110 exactly when the layout setting string is truthy, the
width is always the viewport width. -/
def contentSize (layout : String) (vp : Viewport) : ContentSize :=
  if !(layout = "") then { height := vp.height - 110, width := vp.width }
  else { height := vp.height, width := vp.width }

/-- The layout-band test of renderLayout: a band is written exactly when
the lowercased layout setting is header or footer. -/
def bandActive (layout : String) : Bool :=
  jsToLower layout = "header" || jsToLower layout = "footer"

/-- The logExceptions decorator: call the wrapped function and rethrow
whatever it throws (the inline error rendering is commented out in the
source). -/
def logExceptions {α ε β : Type} (f : α → Except ε β) : α → Except ε β :=
  fun a =>
    match f a with
    | .ok b => .ok b
    | .error e => .error e

/-- Everything Visual.update builds from its inputs in one call. -/
structure UpdateResult : Type where
  size : ContentSize
  headerHtml : String
  footerHtml : String
  records : List Pipeline
  categoryColorData : List CategoryColor
  phaseGroups : List PhaseGroup
  legend : List LegendEntry
deriving DecidableEq, Repr

/-- Visual.update: parse settings, size the content root, convert the
first dataview, truncate to 250 records, split the phases setting, derive
the category-color mapping from the truncated records, write the layout
band over the previous band contents, build the companies area and the
legend. A throw anywhere (missing table, failed color lookup) aborts the
call and propagates. -/
def update (st : VisualSettingsPipeline) (vp : Viewport) (ot : Option Table)
    (prevHeader prevFooter : String) : Except String UpdateResult :=
  match CONVERTER ot with
  | .error e => .error e
  | .ok full =>
    let pipelineData := full.take 250
    let phaseData := splitComma st.phases
    let categoryColorData := mkCategoryColorData st.categories pipelineData
    let hf := renderLayout st.layout st.imgURL prevHeader prevFooter
    match renderPipelineReport categoryColorData pipelineData phaseData with
    | .error e => .error e
    | .ok groups =>
      .ok { size := contentSize st.layout vp,
            headerHtml := hf.1, footerHtml := hf.2,
            records := pipelineData,
            categoryColorData := categoryColorData,
            phaseGroups := groups,
            legend := renderLegend categoryColorData }

/-- The index of the last element of a column list satisfying p, if any
(used to state what the overwrite-on-match scan loop computes). -/
def lastIdxP (p : Column → Bool) : List Column → Option Nat
  | [] => none
  | c :: rest =>
    match lastIdxP p rest with
    | some j => some (j + 1)
    | none => if p c then some 0 else none

/-- A column is assigned to the Title role by the if / else-if chain. -/
def takesTitle (c : Column) : Bool := c.roles.contains "Title"

/-- A column is assigned to the Phase role by the if / else-if chain
(only when not already taken by Title). -/
def takesPhase (c : Column) : Bool :=
  !(c.roles.contains "Title") && c.roles.contains "Phase"

/-- A column is assigned to the Category role by the if / else-if chain. -/
def takesCategory (c : Column) : Bool :=
  !(c.roles.contains "Title") && !(c.roles.contains "Phase") &&
    c.roles.contains "Category"

/-- A column is assigned to the Name role by the if / else-if chain. -/
def takesName (c : Column) : Bool :=
  !(c.roles.contains "Title") && !(c.roles.contains "Phase") &&
    !(c.roles.contains "Category") && c.roles.contains "Name"

/-- The color the per-record lookup of renderPipelineReport finds for a
category: the color of the first mapping entry whose category matches. -/
def findColor (ccd : List CategoryColor) (cat : Option String) : Option String :=
  match (ccd.filter (fun cd => cd.category == cat)).head? with
  | some cc => cc.color
  | none => none

/-- A concrete dataset used to instantiate the CONVERTER row theorem. -/
def exTableC1 : Table :=
  { columns := [{ roles := ["Phase"] }, { roles := ["Title"] }],
    rows := [[.str "Lead", .str "Acme"], [.num 0, .null]] }

/-- C1: for every table-shaped dataset with N rows, CONVERTER returns
exactly N records, in the same order as the input rows, and each of the
four fields of record i equals the toString of the cell at the located
column index for that field in row i, or null when that cell is falsy. -/
theorem converter_rowwise (t : Table) (recs : List Pipeline)
    (h : CONVERTER (some t) = Except.ok recs) :
    recs.length = t.rows.length ∧
    ∀ i, (hi : i < recs.length) → (hr : i < t.rows.length) →
      (recs[i].Title =
        (if (rowGet t.rows[i] (scanColumns t.columns).titleIndex).truthy
         then some (rowGet t.rows[i] (scanColumns t.columns).titleIndex).toStr
         else none)) ∧
      (recs[i].Phase =
        (if (rowGet t.rows[i] (scanColumns t.columns).phaseIndex).truthy
         then some (rowGet t.rows[i] (scanColumns t.columns).phaseIndex).toStr
         else none)) ∧
      (recs[i].Category =
        (if (rowGet t.rows[i] (scanColumns t.columns).categoryIndex).truthy
         then some (rowGet t.rows[i] (scanColumns t.columns).categoryIndex).toStr
         else none)) ∧
      (recs[i].Name =
        (if (rowGet t.rows[i] (scanColumns t.columns).nameIndex).truthy
         then some (rowGet t.rows[i] (scanColumns t.columns).nameIndex).toStr
         else none)) := by
  have hrec : convertTable t = recs := by simpa [CONVERTER] using h
  subst hrec
  refine ⟨by simp [convertTable], ?_⟩
  intro i hi hr
  simp [convertTable, convertRow, cellField]

/-- Closed instance of the CONVERTER row theorem on a concrete dataset. -/
theorem converter_rowwise_witness :
    (convertTable exTableC1).length = exTableC1.rows.length ∧
    ∀ i, (hi : i < (convertTable exTableC1).length) →
      (hr : i < exTableC1.rows.length) →
      ((convertTable exTableC1)[i].Title =
        (if (rowGet exTableC1.rows[i] (scanColumns exTableC1.columns).titleIndex).truthy
         then some (rowGet exTableC1.rows[i] (scanColumns exTableC1.columns).titleIndex).toStr
         else none)) ∧
      ((convertTable exTableC1)[i].Phase =
        (if (rowGet exTableC1.rows[i] (scanColumns exTableC1.columns).phaseIndex).truthy
         then some (rowGet exTableC1.rows[i] (scanColumns exTableC1.columns).phaseIndex).toStr
         else none)) ∧
      ((convertTable exTableC1)[i].Category =
        (if (rowGet exTableC1.rows[i] (scanColumns exTableC1.columns).categoryIndex).truthy
         then some (rowGet exTableC1.rows[i] (scanColumns exTableC1.columns).categoryIndex).toStr
         else none)) ∧
      ((convertTable exTableC1)[i].Name =
        (if (rowGet exTableC1.rows[i] (scanColumns exTableC1.columns).nameIndex).truthy
         then some (rowGet exTableC1.rows[i] (scanColumns exTableC1.columns).nameIndex).toStr
         else none)) :=
  converter_rowwise exTableC1 (convertTable exTableC1) rfl

/-- C3: the record sequence handed to the rendering steps of update never
holds more than 250 records, and with more than 250 input rows it is
exactly the first 250 converted records. -/
theorem update_truncates (st : VisualSettingsPipeline) (vp : Viewport)
    (ot : Option Table) (ph pf : String) (res : UpdateResult)
    (h : update st vp ot ph pf = Except.ok res) :
    res.records.length ≤ 250 ∧
    ∀ full, CONVERTER ot = Except.ok full → 250 < full.length →
      res.records = full.take 250 := by
  cases hc : CONVERTER ot with
  | error e => simp [update, hc] at h
  | ok full =>
    simp only [update, hc] at h
    cases hr : renderPipelineReport (mkCategoryColorData st.categories (full.take 250))
        (full.take 250) (splitComma st.phases) with
    | error e => rw [hr] at h; cases h
    | ok gs =>
      rw [hr] at h
      injection h with h
      subst h
      refine ⟨by simp [List.length_take_le 250 full], ?_⟩
      intro full2 hc2 _
      have hff : full = full2 := Except.ok.inj hc2
      subst hff
      rfl

/-- A concrete settings record used to instantiate update theorems. -/
def exSettingsC3 : VisualSettingsPipeline :=
  { title := "t", phases := "Lead", categories := "",
    imgURL := "", layout := "" }

/-- The result an update call evaluates to, with a dummy record for the
error case (used to instantiate theorems about successful calls). -/
def getOkResult (e : Except String UpdateResult) : UpdateResult :=
  match e with
  | .ok r => r
  | .error _ =>
    { size := { height := 0, width := 0 }, headerHtml := "", footerHtml := "",
      records := [], categoryColorData := [], phaseGroups := [], legend := [] }

/-- The concrete result of the update call used for the truncation
witness. -/
def exResC3 : UpdateResult :=
  getOkResult (update exSettingsC3 { height := 500, width := 800 }
    (some exTableC1) "" "")

/-- Closed instance of the truncation theorem on a concrete update call. -/
theorem update_truncates_witness :
    update exSettingsC3 { height := 500, width := 800 } (some exTableC1) "" "" =
      Except.ok exResC3 ∧
    (exResC3.records.length ≤ 250 ∧
     ∀ full, CONVERTER (some exTableC1) = Except.ok full → 250 < full.length →
       exResC3.records = full.take 250) :=
  ⟨rfl, update_truncates exSettingsC3 { height := 500, width := 800 }
    (some exTableC1) "" "" exResC3 rfl⟩

/-- C8: the logExceptions wrapper is transparent; it returns exactly what
the wrapped function returns and rethrows exactly what it throws. -/
theorem logExceptions_transparent {α ε β : Type} (f : α → Except ε β) (a : α) :
    logExceptions f a = f a := by
  unfold logExceptions
  cases f a <;> rfl

/-- All phase groups are empty when the record list is empty. -/
theorem renderPipelineReport_nil (ccd : List CategoryColor) (pds : List String) :
    renderPipelineReport ccd [] pds =
      Except.ok (pds.map (fun pd => { phase := pd, blocks := [] })) := by
  induction pds with
  | nil => rfl
  | cons pd rest ih => simp [renderPipelineReport, renderCompanies, ih]

/-- C6 counterexample: with a missing dataset or table, update does not
complete with an empty record list; the TypeError thrown by CONVERTER
aborts the call. -/
theorem update_missing_table_counterexample :
    update exSettingsC3 { height := 500, width := 800 } none "" "" =
      Except.error "TypeError" := rfl

/-- C6 amended: with a present table whose row list is empty, the
converted record list is empty and update completes normally with an
empty pipeline; with a missing dataset or table, CONVERTER throws and
update propagates the error instead of completing. -/
theorem update_empty_rows_ok :
    (∀ (st : VisualSettingsPipeline) (vp : Viewport) (cols : List Column)
        (ph pf : String),
      ∃ res, update st vp (some { columns := cols, rows := [] }) ph pf =
          Except.ok res ∧ res.records = []) ∧
    (∀ (st : VisualSettingsPipeline) (vp : Viewport) (ph pf : String),
      ∃ e, update st vp none ph pf = Except.error e) := by
  constructor
  · intro st vp cols ph pf
    refine ⟨{ size := contentSize st.layout vp,
              headerHtml := (renderLayout st.layout st.imgURL ph pf).1,
              footerHtml := (renderLayout st.layout st.imgURL ph pf).2,
              records := [],
              categoryColorData := mkCategoryColorData st.categories [],
              phaseGroups := (splitComma st.phases).map
                (fun pd => { phase := pd, blocks := [] }),
              legend := renderLegend (mkCategoryColorData st.categories []) },
            ?_, rfl⟩
    simp [update, CONVERTER, convertTable, renderPipelineReport_nil]
  · intro st vp ph pf
    exact ⟨"TypeError", rfl⟩

/-- The title index written by one scan step. -/
theorem stepColumn_title (acc : RoleIndexes) (ti : Nat) (c : Column) :
    (stepColumn acc ti c).titleIndex =
      if takesTitle c then some (ti : Int) else acc.titleIndex := by
  unfold stepColumn takesTitle
  cases h1 : c.roles.contains "Title" <;> cases h2 : c.roles.contains "Phase" <;>
    cases h3 : c.roles.contains "Category" <;> cases h4 : c.roles.contains "Name" <;>
    simp

/-- The phase index written by one scan step. -/
theorem stepColumn_phase (acc : RoleIndexes) (ti : Nat) (c : Column) :
    (stepColumn acc ti c).phaseIndex =
      if takesPhase c then some (ti : Int) else acc.phaseIndex := by
  unfold stepColumn takesPhase
  cases h1 : c.roles.contains "Title" <;> cases h2 : c.roles.contains "Phase" <;>
    cases h3 : c.roles.contains "Category" <;> cases h4 : c.roles.contains "Name" <;>
    simp

/-- The category index written by one scan step. -/
theorem stepColumn_category (acc : RoleIndexes) (ti : Nat) (c : Column) :
    (stepColumn acc ti c).categoryIndex =
      if takesCategory c then some (ti : Int) else acc.categoryIndex := by
  unfold stepColumn takesCategory
  cases h1 : c.roles.contains "Title" <;> cases h2 : c.roles.contains "Phase" <;>
    cases h3 : c.roles.contains "Category" <;> cases h4 : c.roles.contains "Name" <;>
    simp

/-- The name index written by one scan step. -/
theorem stepColumn_name (acc : RoleIndexes) (ti : Nat) (c : Column) :
    (stepColumn acc ti c).nameIndex =
      if takesName c then some (ti : Int) else acc.nameIndex := by
  unfold stepColumn takesName
  cases h1 : c.roles.contains "Title" <;> cases h2 : c.roles.contains "Phase" <;>
    cases h3 : c.roles.contains "Category" <;> cases h4 : c.roles.contains "Name" <;>
    simp

/-- The scan loop computes, for each projected index, the position of the
last column the if / else-if chain assigns to that role, offset by the
starting counter, keeping the incoming value when no column matches. -/
theorem scanColumnsAux_proj (get : RoleIndexes → Option Int) (p : Column → Bool)
    (hstep : ∀ acc ti c, get (stepColumn acc ti c) =
      if p c then some (ti : Int) else get acc) :
    ∀ (cols : List Column) (acc : RoleIndexes) (ti : Nat),
      get (scanColumnsAux acc ti cols) =
        match lastIdxP p cols with
        | some j => some ((ti + j : Nat) : Int)
        | none => get acc := by
  intro cols
  induction cols with
  | nil => intro acc ti; rfl
  | cons c rest ih =>
    intro acc ti
    rw [scanColumnsAux, ih]
    cases hl : lastIdxP p rest with
    | some j =>
      simp only [lastIdxP, hl]
      congr 2
      omega
    | none =>
      simp only [lastIdxP, hl, hstep]
      by_cases hp : p c
      · simp [hp]
      · simp [hp]

/-- C4 counterexample: with two Title-tagged columns the located title
index is the second (last) match and not the first, and with no
Name-tagged column the located name index is undefined rather than -1. -/
theorem scanColumns_first_match_counterexample :
    ((scanColumns [{ roles := ["Title"] }, { roles := ["Title"] }]).titleIndex ≠ some 0 ∧
     (scanColumns [{ roles := ["Title"] }, { roles := ["Title"] }]).titleIndex = some 1) ∧
    ((scanColumns [{ roles := ["Phase"] }]).nameIndex ≠ some (-1) ∧
     (scanColumns [{ roles := ["Phase"] }]).nameIndex = none) := by decide

/-- C4 amended: the located column index of each role is the index of the
last column the if / else-if chain assigns to that role (a column counts
only for the first role of Title, Phase, Category, Name that it carries);
a role assigned no column keeps its initial value, -1 for Title, Phase
and Category and undefined for Name, and at both of those index values
every cell reads as undefined, so the corresponding record field is null. -/
theorem scanColumns_located_indexes (cols : List Column) :
    ((scanColumns cols).titleIndex =
      (match lastIdxP takesTitle cols with
       | some j => some (j : Int)
       | none => some (-1)) ∧
     (scanColumns cols).phaseIndex =
      (match lastIdxP takesPhase cols with
       | some j => some (j : Int)
       | none => some (-1)) ∧
     (scanColumns cols).categoryIndex =
      (match lastIdxP takesCategory cols with
       | some j => some (j : Int)
       | none => some (-1)) ∧
     (scanColumns cols).nameIndex =
      (match lastIdxP takesName cols with
       | some j => some (j : Int)
       | none => none)) ∧
    ∀ row : List CellValue,
      cellField row (some (-1)) = none ∧ cellField row none = none := by
  constructor
  · refine ⟨?_, ?_, ?_, ?_⟩
    · have h := scanColumnsAux_proj (fun r => r.titleIndex) takesTitle
        stepColumn_title cols initIndexes 0
      rw [scanColumns, h]
      cases lastIdxP takesTitle cols <;> simp [initIndexes]
    · have h := scanColumnsAux_proj (fun r => r.phaseIndex) takesPhase
        stepColumn_phase cols initIndexes 0
      rw [scanColumns, h]
      cases lastIdxP takesPhase cols <;> simp [initIndexes]
    · have h := scanColumnsAux_proj (fun r => r.categoryIndex) takesCategory
        stepColumn_category cols initIndexes 0
      rw [scanColumns, h]
      cases lastIdxP takesCategory cols <;> simp [initIndexes]
    · have h := scanColumnsAux_proj (fun r => r.nameIndex) takesName
        stepColumn_name cols initIndexes 0
      rw [scanColumns, h]
      cases lastIdxP takesName cols <;> simp [initIndexes]
  · intro row
    constructor
    · norm_num [cellField, rowGet, CellValue.truthy]
    · rfl

/-- A value that occurs in a list has its first index inside the list. -/
theorem firstIdx_lt_length {l : List (Option String)} {x : Option String}
    (hx : x ∈ l) : firstIdx l x < l.length := by
  induction l with
  | nil => cases hx
  | cons a rest ih =>
    rw [firstIdx]
    by_cases h : a = x
    · simp [h]
    · have hxr : x ∈ rest := by
        rcases List.mem_cons.1 hx with h1 | h1
        · exact absurd h1.symm h
        · exact h1
      simp [h, ih hxr]

/-- Reading a list at the first index of a member gives that member. -/
theorem getElem_firstIdx {l : List (Option String)} {x : Option String}
    (hx : x ∈ l) (h : firstIdx l x < l.length) : l[firstIdx l x] = x := by
  induction l with
  | nil => cases hx
  | cons a rest ih =>
    by_cases ha : a = x
    · simp [firstIdx, ha]
    · have hxr : x ∈ rest := by
        rcases List.mem_cons.1 hx with h1 | h1
        · exact absurd h1.symm ha
        · exact h1
      have hlt : firstIdx rest x < rest.length := firstIdx_lt_length hxr
      simp [firstIdx, ha, ih hxr hlt]

/-- The first-occurrence dedupe keeps exactly the values of the list. -/
theorem mem_dedupeByFirstIndex {l : List (Option String)} {x : Option String} :
    x ∈ dedupeByFirstIndex l ↔ x ∈ l := by
  constructor
  · intro hx
    rcases List.mem_map.1 hx with ⟨iv, hiv, rfl⟩
    have h1 := (List.mem_filter.1 hiv).1
    exact List.getElem?_mem (List.mem_enum_iff_getElem?.1 h1)
  · intro hx
    have hlt : firstIdx l x < l.length := firstIdx_lt_length hx
    refine List.mem_map.2 ⟨(firstIdx l x, x), ?_, rfl⟩
    refine List.mem_filter.2 ⟨?_, ?_⟩
    · refine List.mk_mem_enum_iff_getElem?.2 ?_
      rw [List.getElem?_eq_getElem hlt]
      exact congrArg some (getElem_firstIdx hx hlt)
    · simp

/-- The first-occurrence dedupe returns a duplicate-free list. -/
theorem nodup_dedupeByFirstIndex (l : List (Option String)) :
    (dedupeByFirstIndex l).Nodup := by
  have henum : l.enum.Nodup := (List.nodup_enum_map_fst l).of_map _
  have hfil : (l.enum.filter (fun iv => firstIdx l iv.2 == iv.1)).Nodup :=
    henum.filter _
  refine List.Nodup.map_on ?_ hfil
  intro a ha b hb hab
  have h1 : firstIdx l a.2 = a.1 := by simpa using (List.mem_filter.1 ha).2
  have h2 : firstIdx l b.2 = b.1 := by simpa using (List.mem_filter.1 hb).2
  have hfst : a.1 = b.1 := by rw [← h1, ← h2, hab]
  exact Prod.ext hfst hab

/-- The category column of the mapping is the sorted raw category list. -/
theorem mkCategoryColorData_map_category (categories : String)
    (recs : List Pipeline) :
    (mkCategoryColorData categories recs).map (fun cc => cc.category) =
      jsSort (if !(categories = "") then (splitComma categories).map some
              else dedupeByFirstIndex (recs.map (fun d => d.Category))) := by
  simp only [mkCategoryColorData, List.map_map]
  exact List.enum_map_snd _

/-- Every mapping entry takes its color from the palette at its own
position. -/
theorem mkCategoryColorData_colors (categories : String) (recs : List Pipeline) :
    ∀ i, (hi : i < (mkCategoryColorData categories recs).length) →
      (mkCategoryColorData categories recs)[i].color = colors[i]? := by
  intro i hi
  simp only [mkCategoryColorData, List.getElem_map] at hi ⊢
  rw [List.getElem_enum]

/-- A 251-row table whose last row carries the only B category value. -/
def bigTable : Table :=
  { columns := [{ roles := ["Category"] }],
    rows := List.replicate 250 [CellValue.str "A"] ++ [[CellValue.str "B"]] }

set_option maxRecDepth 4000 in
/-- C2 counterexample: a configured category list b,a is re-ordered by
the in-place sort instead of keeping the configured order, and with the
category list unset the mapping of a 251-row dataset lacks the category
that only occurs past the 250-record truncation, so the mapping is not
the sorted distinct category set of the full converted record set. -/
theorem category_mapping_counterexample :
    ((mkCategoryColorData "b,a" []).map (fun cc => cc.category) =
        [some "a", some "b"] ∧
     (mkCategoryColorData "b,a" []).map (fun cc => cc.category) ≠
        [some "b", some "a"]) ∧
    ((mkCategoryColorData "" ((convertTable bigTable).take 250)).map
        (fun cc => cc.category) = [some "A"] ∧
     (mkCategoryColorData "" (convertTable bigTable)).map
        (fun cc => cc.category) = [some "A", some "B"]) :=
  ⟨⟨by decide, by decide⟩, ⟨by decide, by decide⟩⟩

/-- C2 amended: the category-color mapping rebuilt by update has a
sorted category column in both branches (a configured comma-split list
is itself sorted, not kept in configured order); with the categories
setting unset its categories are exactly the distinct Category values of
the truncated record list actually passed to rendering; and the entry at
position i carries the palette color at position i, undefined past the
15 palette entries. -/
theorem update_category_mapping (st : VisualSettingsPipeline) (vp : Viewport)
    (ot : Option Table) (ph pf : String) (res : UpdateResult)
    (h : update st vp ot ph pf = Except.ok res) :
    List.Sorted catLE (res.categoryColorData.map (fun cc => cc.category)) ∧
    (¬(st.categories = "") →
      (res.categoryColorData.map (fun cc => cc.category)).Perm
        ((splitComma st.categories).map some)) ∧
    (st.categories = "" →
      (res.categoryColorData.map (fun cc => cc.category)).Nodup ∧
      ∀ c, c ∈ res.categoryColorData.map (fun cc => cc.category) ↔
        c ∈ res.records.map (fun d => d.Category)) ∧
    ∀ i, (hi : i < res.categoryColorData.length) →
      res.categoryColorData[i].color = colors[i]? := by
  cases hc : CONVERTER ot with
  | error e => simp [update, hc] at h
  | ok full =>
    simp only [update, hc] at h
    cases hr : renderPipelineReport (mkCategoryColorData st.categories (full.take 250))
        (full.take 250) (splitComma st.phases) with
    | error e => rw [hr] at h; cases h
    | ok gs =>
      rw [hr] at h
      injection h with h
      subst h
      refine ⟨?_, ?_, ?_, ?_⟩
      · rw [mkCategoryColorData_map_category]
        exact List.sorted_insertionSort catLE _
      · intro hcat
        rw [mkCategoryColorData_map_category]
        rw [if_pos (by simp [hcat])]
        exact List.perm_insertionSort catLE _
      · intro hcat
        constructor
        · rw [mkCategoryColorData_map_category, if_neg (by simp [hcat]), jsSort]
          exact ((List.perm_insertionSort catLE _).nodup_iff).2
            (nodup_dedupeByFirstIndex _)
        · intro c
          rw [mkCategoryColorData_map_category, if_neg (by simp [hcat]), jsSort]
          rw [List.mem_insertionSort, mem_dedupeByFirstIndex]
      · exact mkCategoryColorData_colors st.categories (full.take 250)

/-- The spec scenario dataset with two categories. -/
def exTableC2 : Table :=
  { columns := [{ roles := ["Title"] }, { roles := ["Phase"] },
                { roles := ["Category"] }, { roles := ["Name"] }],
    rows := [[.str "Acme", .str "Lead", .str "Sales", .str "WidgetA"],
             [.str "Globex", .str "Closed", .str "Marketing", .str "WidgetB"]] }

/-- Settings with the category list unset. -/
def exSettingsC2 : VisualSettingsPipeline :=
  { title := "Pipeline", phases := "Lead,Closed", categories := "",
    imgURL := "", layout := "" }

/-- The concrete result of the update call used for the category-mapping
witness. -/
def exResC2 : UpdateResult :=
  getOkResult (update exSettingsC2 { height := 600, width := 900 }
    (some exTableC2) "" "")

/-- Closed instance of the category-mapping theorem on a concrete update
call. -/
theorem update_category_mapping_witness :
    update exSettingsC2 { height := 600, width := 900 } (some exTableC2) "" "" =
      Except.ok exResC2 ∧
    (List.Sorted catLE (exResC2.categoryColorData.map (fun cc => cc.category)) ∧
     (¬(exSettingsC2.categories = "") →
       (exResC2.categoryColorData.map (fun cc => cc.category)).Perm
         ((splitComma exSettingsC2.categories).map some)) ∧
     (exSettingsC2.categories = "" →
       (exResC2.categoryColorData.map (fun cc => cc.category)).Nodup ∧
       ∀ c, c ∈ exResC2.categoryColorData.map (fun cc => cc.category) ↔
         c ∈ exResC2.records.map (fun d => d.Category)) ∧
     ∀ i, (hi : i < exResC2.categoryColorData.length) →
       exResC2.categoryColorData[i].color = colors[i]?) :=
  ⟨rfl, update_category_mapping exSettingsC2 { height := 600, width := 900 }
    (some exTableC2) "" "" exResC2 rfl⟩

/-- A successful color lookup returns the color the first matching entry
carries. -/
theorem findColor_of_lookup {ccd : List CategoryColor} {cat : Option String}
    {c : Option String} (h : lookupColor ccd cat = Except.ok c) :
    findColor ccd cat = c := by
  unfold lookupColor at h
  unfold findColor
  cases hh : (ccd.filter (fun cd => cd.category == cat)).head? with
  | none => rw [hh] at h; cases h
  | some cc =>
    rw [hh] at h
    injection h

/-- The block a record renders to, given the mapping used for the color
lookup: the Title and Name texts and the found color. -/
def mkBlock (ccd : List CategoryColor) (d : Pipeline) : CompanyBlock :=
  { companyName := d.Title.getD "", productName := d.Name.getD "",
    color := findColor ccd d.Category }

/-- A successful renderCompanies call returns one block per record, with
the Title and Name texts and the looked-up color. -/
theorem renderCompanies_ok_shape (ccd : List CategoryColor) :
    ∀ (l : List Pipeline) (bs : List CompanyBlock),
      renderCompanies ccd l = Except.ok bs →
      bs = l.map (mkBlock ccd) := by
  intro l
  induction l with
  | nil =>
    intro bs h
    rw [renderCompanies] at h
    injection h with h
    simp [h.symm]
  | cons d rest ih =>
    intro bs h
    rw [renderCompanies] at h
    cases hl : lookupColor ccd d.Category with
    | error e => rw [hl] at h; cases h
    | ok c =>
      rw [hl] at h
      cases hrc : renderCompanies ccd rest with
      | error e => rw [hrc] at h; cases h
      | ok bs2 =>
        rw [hrc] at h
        injection h with h
        subst h
        rw [List.map_cons, ← ih bs2 hrc]
        simp [mkBlock, findColor_of_lookup hl]

/-- A successful renderPipelineReport call returns one group per phase
label in order, each holding the blocks of the records whose Phase
matches that label. -/
theorem renderPipelineReport_ok_shape (ccd : List CategoryColor)
    (data : List Pipeline) :
    ∀ (pds : List String) (gs : List PhaseGroup),
      renderPipelineReport ccd data pds = Except.ok gs →
      gs.map (fun g => g.phase) = pds ∧
      ∀ g ∈ gs, g.blocks =
        (data.filter (fun d => d.Phase == some g.phase)).map (mkBlock ccd) := by
  intro pds
  induction pds with
  | nil =>
    intro gs h
    rw [renderPipelineReport] at h
    injection h with h
    subst h
    simp
  | cons pd rest ih =>
    intro gs h
    rw [renderPipelineReport] at h
    cases hrc : renderCompanies ccd (data.filter (fun d => d.Phase == some pd)) with
    | error e => rw [hrc] at h; cases h
    | ok bs =>
      rw [hrc] at h
      cases hrr : renderPipelineReport ccd data rest with
      | error e => rw [hrr] at h; cases h
      | ok gs2 =>
        rw [hrr] at h
        injection h with h
        subst h
        obtain ⟨h1, h2⟩ := ih gs2 hrr
        refine ⟨by simp [h1], ?_⟩
        intro g hg
        rcases List.mem_cons.1 hg with rfl | hg2
        · exact renderCompanies_ok_shape ccd _ bs hrc
        · exact h2 g hg2

/-- C5: during a successful update the companies area holds one group per
comma-split phase label in that order, and the group of phase label p
holds one block per truncated record whose Phase equals p, each showing
the Title and Name texts styled with the color found for the record
category in the category-color mapping. -/
theorem update_companies_area (st : VisualSettingsPipeline) (vp : Viewport)
    (ot : Option Table) (ph pf : String) (res : UpdateResult)
    (h : update st vp ot ph pf = Except.ok res) :
    res.phaseGroups.map (fun g => g.phase) = splitComma st.phases ∧
    ∀ g ∈ res.phaseGroups, g.blocks =
      (res.records.filter (fun d => d.Phase == some g.phase)).map
        (mkBlock res.categoryColorData) := by
  cases hc : CONVERTER ot with
  | error e => simp [update, hc] at h
  | ok full =>
    simp only [update, hc] at h
    cases hr : renderPipelineReport (mkCategoryColorData st.categories (full.take 250))
        (full.take 250) (splitComma st.phases) with
    | error e => rw [hr] at h; cases h
    | ok gs =>
      rw [hr] at h
      injection h with h
      subst h
      exact renderPipelineReport_ok_shape _ _ _ gs hr

/-- The spec scenario dataset with one category. -/
def exTableC5 : Table :=
  { columns := [{ roles := ["Title"] }, { roles := ["Phase"] },
                { roles := ["Category"] }, { roles := ["Name"] }],
    rows := [[.str "Acme", .str "Lead", .str "Sales", .str "WidgetA"],
             [.str "Globex", .str "Closed", .str "Sales", .str "WidgetB"]] }

/-- Settings for the companies-area witness. -/
def exSettingsC5 : VisualSettingsPipeline :=
  { title := "Pipeline", phases := "Lead,Closed", categories := "",
    imgURL := "", layout := "" }

/-- The concrete result of the update call used for the companies-area
witness. -/
def exResC5 : UpdateResult :=
  getOkResult (update exSettingsC5 { height := 640, width := 960 }
    (some exTableC5) "" "")

/-- Closed instance of the companies-area theorem on a concrete update
call. -/
theorem update_companies_area_witness :
    update exSettingsC5 { height := 640, width := 960 } (some exTableC5) "" "" =
      Except.ok exResC5 ∧
    (exResC5.phaseGroups.map (fun g => g.phase) = splitComma exSettingsC5.phases ∧
     ∀ g ∈ exResC5.phaseGroups, g.blocks =
       (exResC5.records.filter (fun d => d.Phase == some g.phase)).map
         (mkBlock exResC5.categoryColorData)) :=
  ⟨rfl, update_companies_area exSettingsC5 { height := 640, width := 960 }
    (some exTableC5) "" "" exResC5 rfl⟩

/-- The color lookup succeeds exactly when some mapping entry has the
looked-up category. -/
theorem lookup_ok_iff (ccd : List CategoryColor) (cat : Option String) :
    (∃ c, lookupColor ccd cat = Except.ok c) ↔
    ∃ cc ∈ ccd, cc.category = cat := by
  unfold lookupColor
  cases hf : ccd.filter (fun cd => cd.category == cat) with
  | nil =>
    simp only [List.head?_nil]
    constructor
    · rintro ⟨c, hc⟩
      cases hc
    · rintro ⟨cc, hmem, hcat⟩
      have hin : cc ∈ ccd.filter (fun cd => cd.category == cat) :=
        List.mem_filter.2 ⟨hmem, by simp [hcat]⟩
      rw [hf] at hin
      cases hin
  | cons cc0 rest =>
    simp only [List.head?_cons]
    constructor
    · intro _
      have h0 : cc0 ∈ ccd.filter (fun cd => cd.category == cat) := by
        rw [hf]
        exact List.mem_cons_self _ _
      have h1 := List.mem_filter.1 h0
      exact ⟨cc0, h1.1, by simpa using h1.2⟩
    · intro _
      exact ⟨cc0.color, rfl⟩

/-- Building the blocks of one record list succeeds exactly when every
record of the list has its category in the mapping. -/
theorem renderCompanies_ok_iff (ccd : List CategoryColor) :
    ∀ l : List Pipeline, (∃ bs, renderCompanies ccd l = Except.ok bs) ↔
      ∀ d ∈ l, ∃ cc ∈ ccd, cc.category = d.Category := by
  intro l
  induction l with
  | nil => simp [renderCompanies]
  | cons d rest ih =>
    cases hl : lookupColor ccd d.Category with
    | error e =>
      constructor
      · rintro ⟨bs, hbs⟩
        rw [renderCompanies, hl] at hbs
        cases hbs
      · intro hcov
        exfalso
        obtain ⟨c, hc⟩ := (lookup_ok_iff ccd d.Category).2
          (hcov d (List.mem_cons_self _ _))
        rw [hl] at hc
        cases hc
    | ok c =>
      constructor
      · rintro ⟨bs, hbs⟩ d2 hd2
        rcases List.mem_cons.1 hd2 with rfl | hd2r
        · exact (lookup_ok_iff ccd d2.Category).1 ⟨c, hl⟩
        · rw [renderCompanies, hl] at hbs
          cases hrc : renderCompanies ccd rest with
          | error e => rw [hrc] at hbs; cases hbs
          | ok bs2 => exact (ih.1 ⟨bs2, hrc⟩) d2 hd2r
      · intro hcov
        obtain ⟨bs2, hbs2⟩ := ih.2 (fun d2 hd2 => hcov d2 (List.mem_cons_of_mem _ hd2))
        exact ⟨_, by rw [renderCompanies, hl, hbs2]⟩

/-- C7: the companies area renders without failure exactly when every
record it renders (one whose Phase matches some phase label) has its
Category present in the category-color mapping; under that precondition
the destructured lookup always finds a match, and that precondition is
exactly what the lookup assumes. -/
theorem renderPipelineReport_safety (ccd : List CategoryColor)
    (data : List Pipeline) (pds : List String) :
    (∃ gs, renderPipelineReport ccd data pds = Except.ok gs) ↔
    (∀ d ∈ data, (∃ pd ∈ pds, d.Phase = some pd) →
      ∃ cc ∈ ccd, cc.category = d.Category) := by
  induction pds with
  | nil =>
    constructor
    · rintro - d hd ⟨pd, hpd, hphase⟩
      cases hpd
    · intro _
      exact ⟨[], rfl⟩
  | cons pd rest ih =>
    constructor
    · rintro ⟨gs, hgs⟩ d hd ⟨pd2, hpd2, hphase⟩
      rw [renderPipelineReport] at hgs
      cases hrc : renderCompanies ccd (data.filter (fun x => x.Phase == some pd)) with
      | error e => rw [hrc] at hgs; cases hgs
      | ok bs =>
        rw [hrc] at hgs
        cases hrr : renderPipelineReport ccd data rest with
        | error e => rw [hrr] at hgs; cases hgs
        | ok gs2 =>
          rcases List.mem_cons.1 hpd2 with rfl | hrest
          · have hdf : d ∈ data.filter (fun x => x.Phase == some pd2) :=
              List.mem_filter.2 ⟨hd, by simp [hphase]⟩
            exact ((renderCompanies_ok_iff ccd _).1 ⟨bs, hrc⟩) d hdf
          · exact (ih.1 ⟨gs2, hrr⟩) d hd ⟨pd2, hrest, hphase⟩
    · intro hcov
      have h1 : ∀ d ∈ data.filter (fun x => x.Phase == some pd),
          ∃ cc ∈ ccd, cc.category = d.Category := by
        intro d hd
        have h2 := List.mem_filter.1 hd
        exact hcov d h2.1 ⟨pd, List.mem_cons_self _ _, by simpa using h2.2⟩
      obtain ⟨bs, hbs⟩ := (renderCompanies_ok_iff ccd _).2 h1
      have h3 : ∀ d ∈ data, (∃ p2 ∈ rest, d.Phase = some p2) →
          ∃ cc ∈ ccd, cc.category = d.Category := by
        rintro d hd ⟨p2, hp2, hph⟩
        exact hcov d hd ⟨p2, List.mem_cons_of_mem _ hp2, hph⟩
      obtain ⟨gs2, hgs2⟩ := ih.2 h3
      exact ⟨_, by rw [renderPipelineReport, hbs, hgs2]⟩

/-- A mapping covering the one rendered record category. -/
def exCcdC7 : List CategoryColor :=
  [{ category := some "Sales", color := some "#2ECC71" }]

/-- One record rendered into the single Lead phase group. -/
def exDataC7 : List Pipeline :=
  [{ Title := some "Acme", Phase := some "Lead", Category := some "Sales",
     Name := some "WidgetA" }]

/-- Closed instance of the safety theorem: with the one rendered category
covered, the companies area renders without failure. -/
theorem renderPipelineReport_safety_witness :
    ∃ gs, renderPipelineReport exCcdC7 exDataC7 ["Lead"] = Except.ok gs :=
  (renderPipelineReport_safety exCcdC7 exDataC7 ["Lead"]).2 (by decide)

/-- C9 counterexample: a layout setting of none is a truthy string, so
the content height is reduced by the 110 band reservation even though
neither the header band nor the footer band is active. -/
theorem content_size_counterexample :
    ((contentSize "none" { height := 500, width := 800 }).height ≠ 500 ∧
     (contentSize "none" { height := 500, width := 800 }).height = 500 - 110) ∧
    bandActive "none" = false := by decide

/-- C9 amended: on every successful update the content root takes the
viewport width, and its height is the viewport height minus the fixed
110 band reservation exactly when the layout setting string is truthy
(non-empty); that condition coincides with a header or footer band being
active only when the bandless layout mode is encoded as the empty
string. -/
theorem update_content_size (st : VisualSettingsPipeline) (vp : Viewport)
    (ot : Option Table) (ph pf : String) (res : UpdateResult)
    (h : update st vp ot ph pf = Except.ok res) :
    res.size.width = vp.width ∧
    (res.size.height = vp.height - 110 ↔ ¬(st.layout = "")) := by
  cases hc : CONVERTER ot with
  | error e => simp [update, hc] at h
  | ok full =>
    simp only [update, hc] at h
    cases hr : renderPipelineReport (mkCategoryColorData st.categories (full.take 250))
        (full.take 250) (splitComma st.phases) with
    | error e => rw [hr] at h; cases h
    | ok gs =>
      rw [hr] at h
      injection h with h
      subst h
      refine ⟨?_, ?_⟩
      · by_cases hl : st.layout = "" <;> simp [contentSize, hl]
      · by_cases hl : st.layout = ""
        · simp [contentSize, hl]
          omega
        · simp [contentSize, hl]

/-- Settings with the bandless layout mode spelled none. -/
def exSettingsC9 : VisualSettingsPipeline :=
  { title := "t", phases := "P", categories := "", imgURL := "",
    layout := "none" }

/-- The concrete result of the update call used for the content-size
witness. -/
def exResC9 : UpdateResult :=
  getOkResult (update exSettingsC9 { height := 500, width := 800 }
    (some { columns := [], rows := [] }) "" "")

/-- Closed instance of the content-size theorem on a concrete update
call with layout none. -/
theorem update_content_size_witness :
    update exSettingsC9 { height := 500, width := 800 }
      (some { columns := [], rows := [] }) "" "" = Except.ok exResC9 ∧
    (exResC9.size.width = 800 ∧
     (exResC9.size.height = 500 - 110 ↔ ¬(exSettingsC9.layout = ""))) :=
  ⟨rfl, update_content_size exSettingsC9 { height := 500, width := 800 }
    (some { columns := [], rows := [] }) "" "" exResC9 rfl⟩

/-- C10: when the lowercased layout setting is neither header nor footer,
update leaves the header and footer container contents exactly as the
previous update left them; the per-update teardown clears only the
content root and renderLayout writes neither band. -/
theorem update_preserves_bands (st : VisualSettingsPipeline) (vp : Viewport)
    (ot : Option Table) (ph pf : String) (res : UpdateResult)
    (h : update st vp ot ph pf = Except.ok res)
    (hl : ¬(jsToLower st.layout = "header") ∧ ¬(jsToLower st.layout = "footer")) :
    res.headerHtml = ph ∧ res.footerHtml = pf := by
  cases hc : CONVERTER ot with
  | error e => simp [update, hc] at h
  | ok full =>
    simp only [update, hc] at h
    cases hr : renderPipelineReport (mkCategoryColorData st.categories (full.take 250))
        (full.take 250) (splitComma st.phases) with
    | error e => rw [hr] at h; cases h
    | ok gs =>
      rw [hr] at h
      injection h with h
      subst h
      constructor
      · show (renderLayout st.layout st.imgURL ph pf).1 = ph
        rw [renderLayout, if_neg hl.1, if_neg hl.2]
      · show (renderLayout st.layout st.imgURL ph pf).2 = pf
        rw [renderLayout, if_neg hl.1, if_neg hl.2]

/-- The concrete result of the update call used for the band-persistence
witness: a none layout over a previously rendered header image. -/
def exResC10 : UpdateResult :=
  getOkResult (update exSettingsC9 { height := 400, width := 700 }
    (some { columns := [], rows := [] }) "<img src=\"logo.png\"/>" "")

/-- Closed instance of the band-persistence theorem: an update with
layout none keeps the header image written by an earlier update. -/
theorem update_preserves_bands_witness :
    update exSettingsC9 { height := 400, width := 700 }
      (some { columns := [], rows := [] }) "<img src=\"logo.png\"/>" "" =
      Except.ok exResC10 ∧
    (¬(jsToLower exSettingsC9.layout = "header") ∧
     ¬(jsToLower exSettingsC9.layout = "footer")) ∧
    (exResC10.headerHtml = "<img src=\"logo.png\"/>" ∧ exResC10.footerHtml = "") :=
  ⟨rfl, by decide,
   update_preserves_bands exSettingsC9 { height := 400, width := 700 }
     (some { columns := [], rows := [] }) "<img src=\"logo.png\"/>" "" exResC10
     rfl (by decide)⟩
